import Mathlib

/-!
Shallow embedding of the tmplreload package and proofs about its
specification claims.

The embedding covers `funcmap.go` (the shared function map), `tmpl.go`
(the self-reloading template `Tmpl`) and the two near-identical
revisions of the collection type `TmplColl` (the unnamed source parts;
their shared functions have identical bodies, and the embedding notes
where the revisions differ).

External collaborators - path resolution (`filepath.Abs`), the
filesystem (`os.Stat`, `filepath.Walk`, `filepath.Glob`) and the
`text/template` engine (`ParseFiles`, `Execute`) - are opaque to the
package, which only branches on their results; they are modelled by a
`World` record of abstract operations.  Locks are dropped (a sequential
model), Go's randomized map iteration is replaced by list order (no
claim depends on iteration order), and the one int64 addition the code
performs (`t.lastUpdate + t.minUpdateIntvlSecs` in `Tmpl.Execute`) is
modelled with explicit two's-complement wrapping.
-/

/-- Association-list map modelling a Go `map[string]V`: unique keys,
insert overwrites, delete removes, iteration order irrelevant to every
claim proved below. -/
abbrev GoMap (α : Type) := List (String × α)

def alookup {α : Type} : GoMap α → String → Option α
  | [], _ => none
  | (k, v) :: rest, key => if k = key then some v else alookup rest key

def aerase {α : Type} : GoMap α → String → GoMap α
  | [], _ => []
  | (k, v) :: rest, key => if k = key then aerase rest key else (k, v) :: aerase rest key

def ainsert {α : Type} (m : GoMap α) (key : String) (v : α) : GoMap α :=
  (key, v) :: aerase m key

def akeys {α : Type} (m : GoMap α) : List String := m.map (fun kv => kv.1)

/-- Error taxonomy of the Go code: `os.ErrNotExist` (and stat errors
satisfying `os.IsNotExist`), other stat errors, `filepath.Abs`/`Glob`
failures, and engine compile/render errors. -/
inductive GoError where
  | notExist
  | statOther (msg : String)
  | pathError (msg : String)
  | compileError (msg : String)
deriving DecidableEq, Repr

/-- Opaque stand-in for a Go `interface\x7b\x7d` callable stored in a
`template.FuncMap`; the cache never applies these values, only the
engine does. -/
abbrev FuncVal := Nat

/-- Model of `template.FuncMap`. -/
abbrev FuncMap := GoMap FuncVal

/-- Model of the options map `map[string]string`. -/
abbrev OptMap := GoMap String

/-- Opaque model of a compiled `*template.Template` as produced by the
engine; `extraOpts` records `Option` strings applied after compilation
(`Tmpl.Option` forwards them to the compiled template). -/
structure EngTemplate where
  tid : Nat
  extraOpts : List String
deriving DecidableEq, Repr

/-- The external collaborators the package consumes, as abstract
operations: `filepath.Abs`, `os.Stat` (returning the Unix mtime),
engine compilation (`template.New` + `Delims` + `Funcs` + options +
`ParseFiles`, which reads the file itself), engine rendering (returning
the byte chunks written to the writer plus an optional error),
`filepath.Glob` and `filepath.Walk` (entries paired with their isDir
flag; entries whose walk callback received an error are omitted, as the
callbacks skip them). -/
structure World where
  absResolve : String → Except GoError String
  statFile : String → Except GoError Int
  compile : String → String × String → FuncMap → OptMap → Except GoError EngTemplate
  render : EngTemplate → Nat → List String × Option GoError
  glob : String → Except GoError (List String)
  walk : String → List (String × Bool)

/-- Go signed-64-bit wrap-around, applied where the source adds two
int64 values. -/
def wrap64 (x : Int) : Int :=
  (x + 9223372036854775808) % 18446744073709551616 - 9223372036854775808

/-- Unix `filepath.IsAbs`: the path begins with a slash. -/
def isAbsPath (p : String) : Bool :=
  match p.data with
  | [] => false
  | c :: _ => c == '/'

/-- Prefix a slash: a concrete absolutization used by witness worlds. -/
def absify (f : String) : String := String.mk ('/' :: f.data)

/-- Splits a character list at its first equals sign. -/
def breakAtEq : List Char → Option (List Char × List Char)
  | [] => none
  | c :: rest =>
    if c = '=' then some ([], rest)
    else
      match breakAtEq rest with
      | none => none
      | some kv => some (c :: kv.1, kv.2)

/-- Go `strings.Index(o, "=")` followed by the two slices: splits an
option string at its first equals sign; `none` when there is none. -/
def splitFirstEq (o : String) : Option (String × String) :=
  match breakAtEq o.data with
  | none => none
  | some kv => some (String.mk kv.1, String.mk kv.2)

/-- The characters after the final slash. -/
def lastSegAux (cur : List Char) : List Char → List Char
  | [] => cur
  | c :: rest => if c = '/' then lastSegAux [] rest else lastSegAux (cur ++ [c]) rest

/-- The suffix starting at the final dot, when a dot is present. -/
def finalExt : List Char → Option (List Char)
  | [] => none
  | c :: rest =>
    match finalExt rest with
    | some s => some s
    | none => if c = '.' then some ('.' :: rest) else none

/-- Go `filepath.Ext`: the suffix starting at the final dot of the
final slash-separated element, empty when that element has no dot. -/
def filepathExt (p : String) : String :=
  match finalExt (lastSegAux [] p.data) with
  | none => ""
  | some s => String.mk s

/-- A directory filter; the `os.FileInfo` argument is dropped since it
is opaque to every claim and unused by both built-in filters. -/
abbrev DirFilter := String → String → Bool

def DirFilterAll (_dir _path : String) : Bool := true

def DirFilterHTML (_dir path : String) : Bool :=
  match filepathExt path with
  | ".html" => true
  | ".htm" => true
  | _ => false

/-- `tmpl.go`: the self-reloading template.  The embedded `funcMap`
field holds the `funcmap.go` struct's `functions` map (each `Tmpl` owns
its own instance, created by `NewTmpl`). -/
structure Tmpl where
  minUpdateIntvlSecs : Int
  delims : String × String
  funcMap : FuncMap
  funcMapUpdated : Bool
  options : OptMap
  tmpl : Option EngTemplate
  lastMod : Int
  lastUpdate : Int
  lastParsed : String
deriving DecidableEq, Repr

/-- Go `math.MinInt64`, the "never" sentinel for `lastMod`/`lastUpdate`. -/
def minInt64 : Int := -9223372036854775808

/-- `NewTmpl`; the Go variadic default for `minUpdateIntvlSecs` is 1. -/
def NewTmpl (minUpdateIntvlSecs : Int) : Tmpl :=
  { minUpdateIntvlSecs := minUpdateIntvlSecs
    delims := ("\x7b\x7b", "\x7d\x7d")
    funcMap := []
    funcMapUpdated := false
    options := []
    tmpl := none
    lastMod := minInt64
    lastUpdate := minInt64
    lastParsed := "" }

def Tmpl.Delims (t : Tmpl) (left right : String) : Tmpl :=
  { t with delims := (left, right) }

def Tmpl.FuncAdd (t : Tmpl) (name : String) (function : FuncVal) : Tmpl :=
  { t with funcMap := ainsert t.funcMap name function, funcMapUpdated := true }

def Tmpl.FuncsAdd (t : Tmpl) (funcMap : FuncMap) : Tmpl :=
  { t with funcMap := funcMap.foldl (fun m kv => ainsert m kv.1 kv.2) t.funcMap
           funcMapUpdated := true }

def Tmpl.FuncsRemove (t : Tmpl) (names : List String) : Tmpl :=
  { t with funcMap := names.foldl aerase t.funcMap, funcMapUpdated := true }

/-- `Tmpl.Option` (renamed: `Option` clashes with the Lean type).  For
each `key=value` entry it stores the pair and, when a compiled template
is present, forwards the option string to it. -/
def Tmpl.optionSet (t : Tmpl) (opt : List String) : Tmpl :=
  opt.foldl
    (fun t o =>
      match splitFirstEq o with
      | none => t
      | some kv =>
        { t with
          options := ainsert t.options kv.1 kv.2
          tmpl := t.tmpl.map (fun tm => { tm with extraOpts := tm.extraOpts ++ [o] }) })
    t

/-- Result of `Tmpl.parseFile`: the updated template, the returned
error, and a ghost record of the function-map snapshot handed to the
engine (`none` when the engine was not invoked) - the model's view of
the observable `accessFunctions`/`ParseFiles` interaction. -/
structure ParseOutcome where
  t : Tmpl
  err : Option GoError
  snapshot : Option FuncMap
deriving DecidableEq, Repr

/-- `Tmpl.parseFile` (`tmpl.go`).  Stats the file; recompiles when the
mtime differs from `lastMod` or the function map was updated (the
source tests this condition twice, read-locked then write-locked; the
two tests are one pure condition in this sequential model).  On engine
success it installs the template and updates `lastMod`, `lastUpdate`
and `lastParsed`; `funcMapUpdated` is left untouched (the source never
clears it).  `now` is the `time.Now().Unix()` of the call. -/
def Tmpl.parseFile (t : Tmpl) (w : World) (now : Int) (filename : String) : ParseOutcome :=
  match w.statFile filename with
  | .error e => ⟨t, some e, none⟩
  | .ok fileInfoModTime =>
    if fileInfoModTime ≠ t.lastMod ∨ t.funcMapUpdated = true then
      match w.compile filename t.delims t.funcMap t.options with
      | .error e => ⟨t, some e, some t.funcMap⟩
      | .ok tmpl =>
        ⟨{ t with
            tmpl := some tmpl
            lastMod := fileInfoModTime
            lastUpdate := now
            lastParsed := filename },
          none, some t.funcMap⟩
    else ⟨t, none, none⟩

/-- `Tmpl.ParseFile`: `parseFile` with locking, identical here. -/
def Tmpl.ParseFile (t : Tmpl) (w : World) (now : Int) (filename : String) : ParseOutcome :=
  t.parseFile w now filename

/-- `Tmpl.Reload`: re-parses the remembered `lastParsed` path. -/
def Tmpl.Reload (t : Tmpl) (w : World) (now : Int) : ParseOutcome :=
  t.ParseFile w now t.lastParsed

/-- Result of `Tmpl.Execute`: the updated template, the chunks written
to the writer, the returned error, and a ghost flag recording whether
the refresh branch (the `parseFile` call) ran. -/
structure ExecOutcome where
  t : Tmpl
  writes : List String
  err : Option GoError
  refreshed : Bool
deriving DecidableEq, Repr

/-- `Tmpl.Execute` (`tmpl.go`).  `cur` is the `currentTime` read at
entry, `nowP` the time observed inside `parseFile`, `now2` the time
assigned to `lastUpdate` right after the refresh attempt.  Fails with
`os.ErrNotExist` when never successfully compiled, before writing
anything; otherwise refreshes when the throttle allows (note the inner
`t.lastUpdate < currentTime` re-check), surfaces a refresh error
without rendering, and finally renders under the compiled template. -/
def Tmpl.Execute (t : Tmpl) (w : World) (cur nowP now2 : Int) (data : Nat) : ExecOutcome :=
  if t.tmpl.isSome = false then ⟨t, [], some GoError.notExist, false⟩
  else
    let step : Tmpl × Option GoError × Bool :=
      if t.minUpdateIntvlSecs ≠ -1 ∧ wrap64 (t.lastUpdate + t.minUpdateIntvlSecs) ≤ cur then
        if t.lastUpdate < cur then
          let po := t.parseFile w nowP t.lastParsed
          ({ po.t with lastUpdate := now2 }, po.err, true)
        else (t, none, false)
      else (t, none, false)
    match step with
    | (t1, some e, r) => ⟨t1, [], some e, r⟩
    | (t1, none, r) =>
      match t1.tmpl with
      | none => ⟨t1, [], some GoError.notExist, r⟩
      | some tm =>
        let oe := w.render tm data
        ⟨t1, oe.1, oe.2, r⟩

/-- The collection (`TmplColl`).  The dedicated background goroutine is
not part of the state; its per-tick body is modelled by `sweepTick`.
The `dirs` watch map exists only in the first revision of the source;
every function shared by both revisions has an identical body. -/
structure TmplColl where
  cleanupIntvlSecs : Int
  delims : String × String
  funcMap : FuncMap
  options : OptMap
  tmpls : GoMap Tmpl
  dirs : GoMap (Option DirFilter)

/-- `New`; the Go variadic default for `cleanupIntvlSecs` is 60. -/
def TmplColl.New (cleanupIntvlSecs : Int) : TmplColl :=
  { cleanupIntvlSecs := cleanupIntvlSecs
    delims := ("\x7b\x7b", "\x7d\x7d")
    funcMap := []
    options := []
    tmpls := []
    dirs := [] }

/-- `TmplColl.Delims`: sets default delimiters for new templates; the
cached templates are not touched. -/
def TmplColl.Delims (t : TmplColl) (left right : String) : TmplColl :=
  { t with delims := (left, right) }

/-- `TmplColl.FuncAdd`: adds to the collection map and broadcasts to
every cached template. -/
def TmplColl.FuncAdd (t : TmplColl) (name : String) (function : FuncVal) : TmplColl :=
  { t with
    funcMap := ainsert t.funcMap name function
    tmpls := t.tmpls.map (fun kv => (kv.1, kv.2.FuncAdd name function)) }

/-- `TmplColl.FuncsAdd`: adds all entries and broadcasts. -/
def TmplColl.FuncsAdd (t : TmplColl) (funcMap : FuncMap) : TmplColl :=
  { t with
    funcMap := funcMap.foldl (fun m kv => ainsert m kv.1 kv.2) t.funcMap
    tmpls := t.tmpls.map (fun kv => (kv.1, kv.2.FuncsAdd funcMap)) }

/-- `TmplColl.FuncsRemove`: removes the names and broadcasts. -/
def TmplColl.FuncsRemove (t : TmplColl) (names : List String) : TmplColl :=
  { t with
    funcMap := names.foldl aerase t.funcMap
    tmpls := t.tmpls.map (fun kv => (kv.1, kv.2.FuncsRemove names)) }

/-- `TmplColl.Option` (renamed as for `Tmpl.optionSet`): records each
`key=value` default; the cached templates are not touched. -/
def TmplColl.optionSet (t : TmplColl) (opt : List String) : TmplColl :=
  opt.foldl
    (fun t o =>
      match splitFirstEq o with
      | none => t
      | some kv => { t with options := ainsert t.options kv.1 kv.2 })
    t

/-- `TmplColl.Lookup`: resolves the filename and returns the cached
template; the Go code returns a nil interface (modelled `none`) both on
resolution failure and on a missing entry. -/
def TmplColl.Lookup (t : TmplColl) (w : World) (filename : String) : Option Tmpl :=
  match w.absResolve filename with
  | .error _ => none
  | .ok absPath => alookup t.tmpls absPath

/-- `TmplColl.ExecuteTemplate`: resolves the filename, fails with
`os.ErrNotExist` when no template is cached, else delegates to the
template's `Execute` (the template is mutated through its pointer;
modelled by writing the updated value back at the same key). -/
def TmplColl.ExecuteTemplate (t : TmplColl) (w : World) (cur nowP now2 : Int)
    (filename : String) (data : Nat) : TmplColl × List String × Option GoError :=
  match w.absResolve filename with
  | .error e => (t, [], some e)
  | .ok absPath =>
    match alookup t.tmpls absPath with
    | none => (t, [], some GoError.notExist)
    | some tmpl =>
      let eo := tmpl.Execute w cur nowP now2 data
      ({ t with tmpls := ainsert t.tmpls absPath eo.t }, eo.writes, eo.err)

/-- The template constructed for one path inside the `parseFiles` loop:
a fresh `NewTmpl()` configured with the collection's current defaults
(note `FuncsAdd` marks it updated from birth). -/
def newCollTmpl (t : TmplColl) : Tmpl :=
  let tmpl := NewTmpl 1
  let tmpl := tmpl.Delims t.delims.1 t.delims.2
  let tmpl := tmpl.FuncsAdd t.funcMap
  t.options.foldl (fun tm kv => tm.optionSet [kv.1 ++ "=" ++ kv.2]) tmpl

/-- `TmplColl.parseFiles` (identical in both source revisions).  For
each path: resolve (a resolution failure aborts the batch), construct a
fresh defaults-configured template, call its `ParseFile`, and store it.
The source line is `if tmpl.ParseFile(absPath); err != nil \x7b return
err \x7d`: `ParseFile` is evaluated only for its effect and its error
is discarded - `err` still holds the nil error from `filepath.Abs`, so
the guard can never fire and the template is stored regardless. -/
def TmplColl.parseFiles (t : TmplColl) (w : World) (now : Int) (lockMods : Bool)
    (filenames : List String) : TmplColl × Option GoError :=
  match filenames with
  | [] => (t, none)
  | filename :: rest =>
    match w.absResolve filename with
    | .error e => (t, some e)
    | .ok absPath =>
      let tmpl := ((newCollTmpl t).ParseFile w now absPath).t
      TmplColl.parseFiles { t with tmpls := ainsert t.tmpls absPath tmpl } w now lockMods rest

def TmplColl.ParseFiles (t : TmplColl) (w : World) (now : Int)
    (filenames : List String) : TmplColl × Option GoError :=
  t.parseFiles w now true filenames

/-- `TmplColl.ParseGlob`: expands the glob and delegates to the
non-locking `parseFiles`. -/
def TmplColl.ParseGlob (t : TmplColl) (w : World) (now : Int)
    (pattern : String) : TmplColl × Option GoError :=
  match w.glob pattern with
  | .error e => (t, some e)
  | .ok filenames => t.parseFiles w now false filenames

/-- `TmplColl.ReloadFiles`: best-effort; skips paths that fail to
resolve or have no cached template, reloads the rest in place.  The Go
function always returns a nil error. -/
def TmplColl.ReloadFiles (t : TmplColl) (w : World) (now : Int)
    (filenames : List String) : TmplColl :=
  match filenames with
  | [] => t
  | filename :: rest =>
    match w.absResolve filename with
    | .error _ => t.ReloadFiles w now rest
    | .ok absPath =>
      match alookup t.tmpls absPath with
      | none => t.ReloadFiles w now rest
      | some tmpl =>
        TmplColl.ReloadFiles
          { t with tmpls := ainsert t.tmpls absPath (tmpl.Reload w now).t } w now rest

/-- `TmplColl.removeFiles`: best-effort eviction; resolution failures
are skipped. -/
def TmplColl.removeFiles (t : TmplColl) (w : World) (lockMods : Bool)
    (filenames : List String) : TmplColl :=
  match filenames with
  | [] => t
  | filename :: rest =>
    match w.absResolve filename with
    | .error _ => t.removeFiles w lockMods rest
    | .ok absPath => TmplColl.removeFiles { t with tmpls := aerase t.tmpls absPath } w lockMods rest

def TmplColl.RemoveFiles (t : TmplColl) (w : World) (filenames : List String) : TmplColl :=
  t.removeFiles w true filenames

/-- Go `os.IsNotExist` applied to a stat result. -/
def isNotExist : Except GoError Int → Bool
  | .error .notExist => true
  | _ => false

/-- Loop body of `RemoveStaleFiles`: stat one snapshotted path and
evict it when the file is absent. -/
def removeStaleStep (w : World) (t : TmplColl) (absPath : String) : TmplColl :=
  if isNotExist (w.statFile absPath) then { t with tmpls := aerase t.tmpls absPath } else t

/-- `TmplColl.RemoveStaleFiles` (named `RemoveStaleTemplates` in the
first revision, same body): snapshots the cached keys, stats each one,
and evicts those whose file is absent. -/
def TmplColl.RemoveStaleFiles (t : TmplColl) (w : World) : TmplColl :=
  (akeys t.tmpls).foldl (removeStaleStep w) t

/-- `TmplColl.IndexDirs` (first revision only): walks each watched
directory, applies its filter (default `DirFilterHTML`), and parses
matching regular files via the non-locking `parseFiles`, discarding
per-file errors. -/
def TmplColl.IndexDirs (t : TmplColl) (w : World) (now : Int) : TmplColl :=
  t.dirs.foldl
    (fun t kv =>
      let dirFilter := kv.2.getD DirFilterHTML
      ((w.walk kv.1).filter (fun e => !e.2)).foldl
        (fun t e =>
          if dirFilter kv.1 e.1 then (t.parseFiles w now false [e.1]).1 else t)
        t)
    t

/-- `TmplColl.WatchDir`: resolves the directory and registers it. -/
def TmplColl.WatchDir (t : TmplColl) (w : World) (dir : String)
    (dirFilter : Option DirFilter) : TmplColl × Option GoError :=
  match w.absResolve dir with
  | .error e => (t, some e)
  | .ok absPath => ({ t with dirs := ainsert t.dirs absPath dirFilter }, none)

/-- `TmplColl.UnwatchDir`: deregisters the directory and evicts every
template found under it by a walk. -/
def TmplColl.UnwatchDir (t : TmplColl) (w : World) (dir : String) : TmplColl × Option GoError :=
  match w.absResolve dir with
  | .error e => (t, some e)
  | .ok absPath =>
    let t := { t with dirs := aerase t.dirs absPath }
    let files := ((w.walk absPath).filter (fun e => !e.2)).map (fun e => e.1)
    (t.removeFiles w false files, none)

/-- One tick of the background goroutine of the first revision:
`IndexDirs` then stale removal (the second revision's tick runs only
the stale removal). -/
def TmplColl.sweepTick (t : TmplColl) (w : World) (now : Int) : TmplColl :=
  (t.IndexDirs w now).RemoveStaleFiles w

/-- `filepath.Abs` always yields an absolute path (a property of the
external resolver, assumed as a hypothesis where needed). -/
def World.absOK (w : World) : Prop :=
  ∀ f p, w.absResolve f = .ok p → isAbsPath p = true

/-- Invariant: every key of the path-to-template map and of the watched
directory map is an absolute path. -/
def keysAbs (t : TmplColl) : Prop :=
  (∀ p ∈ akeys t.tmpls, isAbsPath p = true) ∧ (∀ d ∈ akeys t.dirs, isAbsPath d = true)

/-- A concrete compiled-template value for witness worlds. -/
def engOne : EngTemplate := ⟨1, []⟩

/-- Witness world: inputs resolve to themselves, every stat succeeds
with mtime 10, compilation succeeds, rendering writes one chunk. -/
def cwOk : World :=
  { absResolve := fun f => .ok f
    statFile := fun _ => .ok 10
    compile := fun _ _ _ _ => .ok engOne
    render := fun _ _ => (["out"], none)
    glob := fun _ => .ok []
    walk := fun _ => [] }

/-- Witness world: only `/a/good.html` exists; everything else stats as
missing. -/
def cwMissing : World :=
  { absResolve := fun f => .ok f
    statFile := fun f => if f = "/a/good.html" then .ok 10 else .error .notExist
    compile := fun _ _ _ _ => .ok engOne
    render := fun _ _ => (["out"], none)
    glob := fun _ => .ok []
    walk := fun _ => [] }

/-- Witness world: every stat fails with a non-not-exist error, so any
attempted refresh surfaces that error. -/
def cwStatFails : World :=
  { absResolve := fun f => .ok f
    statFile := fun _ => .error (.statOther "io")
    compile := fun _ _ _ _ => .ok engOne
    render := fun _ _ => (["out"], none)
    glob := fun _ => .ok []
    walk := fun _ => [] }

/-- Witness world: stats succeed but the engine rejects every source. -/
def cwCompileFail : World :=
  { absResolve := fun f => .ok f
    statFile := fun _ => .ok 10
    compile := fun _ _ _ _ => .error (.compileError "syntax")
    render := fun _ _ => (["out"], none)
    glob := fun _ => .ok []
    walk := fun _ => [] }

/-- Witness world whose resolver prefixes a slash, hence satisfies
`World.absOK`. -/
def cwAbsify : World :=
  { absResolve := fun f => .ok (absify f)
    statFile := fun _ => .ok 10
    compile := fun _ _ _ _ => .ok engOne
    render := fun _ _ => (["out"], none)
    glob := fun _ => .ok ["x.html"]
    walk := fun _ => [] }

/-- A concrete successfully-compiled template cached at `/a/p.html`. -/
def tmplGood : Tmpl :=
  { minUpdateIntvlSecs := 1
    delims := ("\x7b\x7b", "\x7d\x7d")
    funcMap := []
    funcMapUpdated := false
    options := []
    tmpl := some engOne
    lastMod := 10
    lastUpdate := 50
    lastParsed := "/a/p.html" }

/-- A concrete collection holding `tmplGood` at `/a/p.html`. -/
def cFixture : TmplColl :=
  { cleanupIntvlSecs := 60
    delims := ("\x7b\x7b", "\x7d\x7d")
    funcMap := []
    options := []
    tmpls := [("/a/p.html", tmplGood)]
    dirs := [] }

/-- A concrete collection whose cached entry backs a now-missing file
(under `cwMissing` only `/a/good.html` exists). -/
def cStale : TmplColl :=
  { cFixture with tmpls := [("/a/missing.html", tmplGood)] }

/-- A fresh template with one function added: its function map was
updated since the (never-run) last compile. -/
def c2t : Tmpl := (NewTmpl 1).FuncAdd "f" 0

/-- A compiled template whose recorded mtime differs from the stat
result of the witness worlds (10), forcing recompilation. -/
def c7t : Tmpl := { tmplGood with lastMod := 3 }

/-- A compiled template with throttle interval 0 whose last refresh
time equals the current call time of the scenarios below. -/
def c5t : Tmpl := { tmplGood with minUpdateIntvlSecs := 0, lastUpdate := 5 }

/-! Map lemmas. -/

theorem alookup_aerase_self {α : Type} (m : GoMap α) (k : String) :
    alookup (aerase m k) k = none := by
  induction m with
  | nil => rfl
  | cons kv rest ih =>
    obtain ⟨a, b⟩ := kv
    by_cases hk : a = k
    · simpa [aerase, hk] using ih
    · simp [aerase, hk, alookup, ih]

theorem alookup_aerase_ne {α : Type} (m : GoMap α) (k key : String) (h : key ≠ k) :
    alookup (aerase m k) key = alookup m key := by
  induction m with
  | nil => rfl
  | cons kv rest ih =>
    obtain ⟨a, b⟩ := kv
    by_cases hk : a = k
    · subst hk
      have : ¬ a = key := fun he => h (he.symm)
      simp [aerase, alookup, this, ih]
    · simp [aerase, hk, alookup, ih]

theorem alookup_ainsert_self {α : Type} (m : GoMap α) (k : String) (v : α) :
    alookup (ainsert m k v) k = some v := by
  simp [ainsert, alookup]

theorem alookup_ainsert_ne {α : Type} (m : GoMap α) (k key : String) (v : α) (h : key ≠ k) :
    alookup (ainsert m k v) key = alookup m key := by
  have : ¬ k = key := fun he => h (he.symm)
  simp [ainsert, alookup, this, alookup_aerase_ne m k key h]

theorem alookup_eq_none_of_not_mem {α : Type} (m : GoMap α) (p : String) (h : p ∉ akeys m) :
    alookup m p = none := by
  induction m with
  | nil => rfl
  | cons kv rest ih =>
    obtain ⟨a, b⟩ := kv
    simp only [akeys, List.map_cons, List.mem_cons] at h
    push_neg at h
    have ha : ¬ a = p := fun he => h.1 (he.symm)
    simp only [alookup, if_neg ha]
    exact ih (by simpa [akeys] using h.2)

theorem mem_akeys_aerase {α : Type} (m : GoMap α) (k q : String)
    (h : q ∈ akeys (aerase m k)) : q ∈ akeys m := by
  induction m with
  | nil => simpa [aerase] using h
  | cons kv rest ih =>
    obtain ⟨a, b⟩ := kv
    by_cases hk : a = k
    · simp only [aerase, if_pos hk] at h
      simp only [akeys, List.map_cons, List.mem_cons]
      exact Or.inr (ih h)
    · simp only [aerase, if_neg hk, akeys, List.map_cons, List.mem_cons] at h ⊢
      rcases h with h | h
      · exact Or.inl h
      · exact Or.inr (ih h)

theorem mem_akeys_ainsert {α : Type} (m : GoMap α) (k q : String) (v : α)
    (h : q ∈ akeys (ainsert m k v)) : q = k ∨ q ∈ akeys m := by
  simp only [ainsert, akeys, List.map_cons, List.mem_cons] at h
  rcases h with h | h
  · exact Or.inl h
  · exact Or.inr (mem_akeys_aerase m k q h)

theorem akeys_map_snd {α β : Type} (m : GoMap α) (g : String → α → β) :
    akeys (m.map (fun kv => (kv.1, g kv.1 kv.2))) = akeys m := by
  induction m with
  | nil => rfl
  | cons kv rest ih =>
    simp only [akeys, List.map_cons, List.cons.injEq] at ih ⊢
    exact ⟨trivial, ih⟩

/-! Field-preservation lemmas. -/

theorem tmplOptionSet_fields (opt : List String) (t : Tmpl) :
    (t.optionSet opt).delims = t.delims ∧
    (t.optionSet opt).minUpdateIntvlSecs = t.minUpdateIntvlSecs ∧
    (t.optionSet opt).funcMap = t.funcMap ∧
    (t.optionSet opt).funcMapUpdated = t.funcMapUpdated := by
  induction opt generalizing t with
  | nil => exact ⟨rfl, rfl, rfl, rfl⟩
  | cons o rest ih =>
    simp only [Tmpl.optionSet, List.foldl_cons] at ih ⊢
    rcases h : splitFirstEq o with _ | kv
    · simpa [h] using ih _
    · simpa [h] using ih _

theorem collOptionSet_fields (opt : List String) (t : TmplColl) :
    (t.optionSet opt).tmpls = t.tmpls ∧
    (t.optionSet opt).delims = t.delims ∧
    (t.optionSet opt).dirs = t.dirs ∧
    (t.optionSet opt).funcMap = t.funcMap := by
  induction opt generalizing t with
  | nil => exact ⟨rfl, rfl, rfl, rfl⟩
  | cons o rest ih =>
    simp only [TmplColl.optionSet, List.foldl_cons] at ih ⊢
    rcases h : splitFirstEq o with _ | kv
    · simpa [h] using ih _
    · simpa [h] using ih _

theorem foldl_optionSet_delims (l : List (String × String)) (t : Tmpl) :
    (l.foldl (fun tm kv => tm.optionSet [kv.1 ++ "=" ++ kv.2]) t).delims = t.delims := by
  induction l generalizing t with
  | nil => rfl
  | cons kv rest ih =>
    simp only [List.foldl_cons]
    rw [ih]
    exact (tmplOptionSet_fields _ _).1

theorem newCollTmpl_delims (t : TmplColl) : (newCollTmpl t).delims = t.delims := by
  unfold newCollTmpl
  rw [foldl_optionSet_delims]
  rfl

/-- C2 counterexample: a successful `parseFile` (the stat succeeds, the
condition to recompile holds, the engine compiles) installs the new
template but leaves `funcMapUpdated` set, although the claim says the
dirty flag is cleared. -/
theorem c2_dirty_flag_not_cleared :
    (c2t.parseFile cwOk 100 "/a/p.html").err = none ∧
    (c2t.parseFile cwOk 100 "/a/p.html").t.tmpl = some engOne ∧
    (c2t.parseFile cwOk 100 "/a/p.html").t.funcMapUpdated = true := by decide

/-- C2 (amended): on a `loadFrom`/`ParseFile` call whose compile
succeeds, the operation swaps in the newly compiled template, sets
`lastMod` to the file's modification time, `lastUpdate` to the current
time and `lastParsed` to the parsed path, and leaves every other field
- in particular the `funcMapUpdated` dirty flag, which the code never
clears - unchanged. -/
theorem c2_parseFile_success_fields (w : World) (now : Int) (t : Tmpl) (f : String)
    (m : Int) (tm : EngTemplate)
    (hstat : w.statFile f = .ok m)
    (hmod : m ≠ t.lastMod ∨ t.funcMapUpdated = true)
    (hcomp : w.compile f t.delims t.funcMap t.options = .ok tm) :
    (t.parseFile w now f).err = none ∧
    (t.parseFile w now f).t.tmpl = some tm ∧
    (t.parseFile w now f).t.lastMod = m ∧
    (t.parseFile w now f).t.lastUpdate = now ∧
    (t.parseFile w now f).t.lastParsed = f ∧
    (t.parseFile w now f).t.funcMapUpdated = t.funcMapUpdated ∧
    (t.parseFile w now f).t.delims = t.delims ∧
    (t.parseFile w now f).t.funcMap = t.funcMap ∧
    (t.parseFile w now f).t.options = t.options ∧
    (t.parseFile w now f).t.minUpdateIntvlSecs = t.minUpdateIntvlSecs := by
  simp only [Tmpl.parseFile, hstat, if_pos hmod, hcomp]
  simp

/-- C2 witness: the amended theorem applied at a concrete world and
template. -/
theorem c2_parseFile_success_fields_witness :
    (c2t.parseFile cwOk 100 "/a/p.html").err = none ∧
    (c2t.parseFile cwOk 100 "/a/p.html").t.tmpl = some engOne ∧
    (c2t.parseFile cwOk 100 "/a/p.html").t.lastMod = 10 ∧
    (c2t.parseFile cwOk 100 "/a/p.html").t.lastUpdate = 100 ∧
    (c2t.parseFile cwOk 100 "/a/p.html").t.lastParsed = "/a/p.html" ∧
    (c2t.parseFile cwOk 100 "/a/p.html").t.funcMapUpdated = c2t.funcMapUpdated ∧
    (c2t.parseFile cwOk 100 "/a/p.html").t.delims = c2t.delims ∧
    (c2t.parseFile cwOk 100 "/a/p.html").t.funcMap = c2t.funcMap ∧
    (c2t.parseFile cwOk 100 "/a/p.html").t.options = c2t.options ∧
    (c2t.parseFile cwOk 100 "/a/p.html").t.minUpdateIntvlSecs = c2t.minUpdateIntvlSecs :=
  c2_parseFile_success_fields cwOk 100 c2t "/a/p.html" 10 engOne rfl (Or.inr rfl) rfl

/-- C7: when the recompile condition holds but the engine rejects the
source, the whole template state - previously compiled template,
`lastMod`, `lastUpdate`, `lastParsed` and all - is left unchanged and
the compile error is returned. -/
theorem c7_compile_failure_preserves (w : World) (now : Int) (t : Tmpl) (f : String)
    (m : Int) (e : GoError)
    (hstat : w.statFile f = .ok m)
    (hmod : m ≠ t.lastMod ∨ t.funcMapUpdated = true)
    (hcomp : w.compile f t.delims t.funcMap t.options = .error e) :
    (t.parseFile w now f).t = t ∧ (t.parseFile w now f).err = some e := by
  simp only [Tmpl.parseFile, hstat, if_pos hmod, hcomp]
  simp

/-- C7 witness: a compiled template keeps its state across a failing
recompile. -/
theorem c7_compile_failure_preserves_witness :
    (c7t.parseFile cwCompileFail 100 "/a/p.html").t = c7t ∧
    (c7t.parseFile cwCompileFail 100 "/a/p.html").err = some (GoError.compileError "syntax") :=
  c7_compile_failure_preserves cwCompileFail 100 c7t "/a/p.html" 10
    (GoError.compileError "syntax") rfl (Or.inl (by decide)) rfl

/-- C8: `Execute` on a template that has never completed a successful
compile (its `tmpl` field is still nil) returns `os.ErrNotExist`,
writes nothing, changes nothing, and attempts no refresh. -/
theorem c8_execute_uninitialized (t : Tmpl) (w : World) (cur nowP now2 : Int) (data : Nat)
    (h : t.tmpl = none) :
    t.Execute w cur nowP now2 data = ⟨t, [], some GoError.notExist, false⟩ := by
  simp [Tmpl.Execute, h]

/-- C8 witness: a freshly created template fails `Execute` this way. -/
theorem c8_execute_uninitialized_witness :
    (NewTmpl 1).Execute cwOk 5 6 7 0 = ⟨NewTmpl 1, [], some GoError.notExist, false⟩ :=
  c8_execute_uninitialized (NewTmpl 1) cwOk 5 6 7 0 rfl

/-- C1: evaluating the batch parse at a batch whose second path's
backing file is missing.  The claim (and the spec) say the `loadFrom`
failure aborts the batch and is returned; the code instead discards
`ParseFile`'s error (the guard `if tmpl.ParseFile(absPath); err != nil`
tests the already-nil `filepath.Abs` error), returns nil, caches the
earlier file compiled, and caches a never-compiled artifact for the
missing path. -/
theorem c1_parseFiles_swallows_load_error :
    ((TmplColl.New 60).ParseFiles cwMissing 50 ["/a/good.html", "/a/missing.html"]).2 = none ∧
    (alookup ((TmplColl.New 60).ParseFiles cwMissing 50
        ["/a/good.html", "/a/missing.html"]).1.tmpls "/a/good.html").map Tmpl.tmpl
      = some (some engOne) ∧
    (alookup ((TmplColl.New 60).ParseFiles cwMissing 50
        ["/a/good.html", "/a/missing.html"]).1.tmpls "/a/missing.html").map Tmpl.tmpl
      = some none := by decide

/-- C3 counterexample: a collection holding one cached artifact; after
`Delims("[[", "]]")` and `Option("k=v")` the collection's defaults are
updated but the held artifact keeps its old delimiters and empty
options - the claimed broadcast to currently-held artifacts does not
happen. -/
theorem c3_delims_option_not_broadcast :
    (let c0 := ((TmplColl.New 60).ParseFiles cwOk 50 ["/a/p.html"]).1
     let c1 := (c0.Delims "[[" "]]").optionSet ["k=v"]
     c1.delims = ("[[", "]]") ∧ alookup c1.options "k" = some "v" ∧
     (alookup c1.tmpls "/a/p.html").map Tmpl.delims = some ("\x7b\x7b", "\x7d\x7d") ∧
     (alookup c1.tmpls "/a/p.html").map Tmpl.options = some []) := by decide

/-- C3 (amended): `Delims` and `Option` update only the collection's
defaults - which configure artifacts constructed afterwards (a fresh
`newCollTmpl` picks up the new delimiters) - and leave every
currently-held artifact untouched; only the function-map operations
broadcast. -/
theorem c3_delims_option_defaults_only (t : TmplColl) (l r : String) (opt : List String) :
    (t.Delims l r).delims = (l, r) ∧
    (t.Delims l r).tmpls = t.tmpls ∧
    (newCollTmpl (t.Delims l r)).delims = (l, r) ∧
    (t.optionSet opt).tmpls = t.tmpls ∧
    (t.optionSet opt).delims = t.delims := by
  refine ⟨rfl, rfl, ?_, (collOptionSet_fields opt t).1, (collOptionSet_fields opt t).2.1⟩
  rw [newCollTmpl_delims]
  rfl

theorem wrap64_eq_of_range (x : Int) (hlo : minInt64 ≤ x)
    (hhi : x < 9223372036854775808) : wrap64 x = x := by
  unfold wrap64
  unfold minInt64 at hlo
  have h0 : 0 ≤ x + 9223372036854775808 := by omega
  have h1 : x + 9223372036854775808 < 18446744073709551616 := by omega
  rw [Int.emod_eq_of_lt h0 h1]
  omega

/-- The refresh branch of `Execute` runs exactly when the template is
initialized, throttling is not disabled, the (wrapping) throttle sum is
due, and the inner `lastUpdate < currentTime` re-check passes. -/
theorem execute_refreshed_iff (t : Tmpl) (w : World) (cur nowP now2 : Int) (data : Nat) :
    (t.Execute w cur nowP now2 data).refreshed = true ↔
      (t.tmpl.isSome = true ∧ t.minUpdateIntvlSecs ≠ -1 ∧
        wrap64 (t.lastUpdate + t.minUpdateIntvlSecs) ≤ cur ∧ t.lastUpdate < cur) := by
  cases ht : t.tmpl with
  | none => simp [Tmpl.Execute, ht]
  | some tm =>
    by_cases hU : t.minUpdateIntvlSecs ≠ -1 ∧ wrap64 (t.lastUpdate + t.minUpdateIntvlSecs) ≤ cur
    · by_cases hL : t.lastUpdate < cur
      · cases hpe : (t.parseFile w nowP t.lastParsed).err with
        | some e => simp [Tmpl.Execute, ht, hU, hL, hpe]
        | none =>
          cases hpt : (t.parseFile w nowP t.lastParsed).t.tmpl with
          | none => simp [Tmpl.Execute, ht, hU, hL, hpe, hpt]
          | some tm2 => simp [Tmpl.Execute, ht, hU, hL, hpe, hpt]
      · simp [Tmpl.Execute, ht, hU, hL]
    · have hF : (t.Execute w cur nowP now2 data).refreshed = false := by
        simp [Tmpl.Execute, ht, hU]
      rw [hF]
      simp only [Bool.false_eq_true, false_iff]
      rintro ⟨_, hA, hB, _⟩
      exact hU ⟨hA, hB⟩

/-- C5 counterexample: two `Execute` calls where the claimed condition
`now - lastRefreshedAt >= minRefreshIntervalSeconds` (with interval not
-1) holds, yet no refresh is attempted.  First, interval 0 with
`lastUpdate = now`: the inner `lastUpdate < currentTime` re-check
fails; under a world whose every stat fails, an attempted refresh would
surface that error, but the call renders successfully and its ghost
flag is false.  Second, a never-compiled artifact returns early without
attempting the refresh although the inequality holds. -/
theorem c5_throttle_claim_fails :
    ((5 : Int) - c5t.lastUpdate ≥ c5t.minUpdateIntvlSecs ∧ c5t.minUpdateIntvlSecs ≠ -1 ∧
      c5t.Execute cwStatFails 5 99 99 0 = ⟨c5t, ["out"], none, false⟩) ∧
    ((5 : Int) - (NewTmpl 1).lastUpdate ≥ (NewTmpl 1).minUpdateIntvlSecs ∧
      (NewTmpl 1).minUpdateIntvlSecs ≠ -1 ∧
      ((NewTmpl 1).Execute cwStatFails 5 99 99 0).refreshed = false) := by decide

/-- C5 (amended): `Execute` attempts a refresh exactly when the
artifact has compiled at least once, `minUpdateIntvlSecs` is not -1,
the wrapping sum `lastUpdate + minUpdateIntvlSecs` is at most `now`,
and additionally `lastUpdate < now` (the inner re-check); with
`minUpdateIntvlSecs = -1` a refresh is never attempted; and for an
initialized artifact with interval at least 1 (and no int64 overflow)
this coincides with the claimed condition
`now - lastRefreshedAt >= minRefreshIntervalSeconds`. -/
theorem c5_refresh_characterization (t : Tmpl) (w : World) (cur nowP now2 : Int) (data : Nat) :
    ((t.Execute w cur nowP now2 data).refreshed = true ↔
      (t.tmpl.isSome = true ∧ t.minUpdateIntvlSecs ≠ -1 ∧
        wrap64 (t.lastUpdate + t.minUpdateIntvlSecs) ≤ cur ∧ t.lastUpdate < cur)) ∧
    (t.minUpdateIntvlSecs = -1 → (t.Execute w cur nowP now2 data).refreshed = false) ∧
    (1 ≤ t.minUpdateIntvlSecs → t.tmpl.isSome = true →
      minInt64 ≤ t.lastUpdate + t.minUpdateIntvlSecs →
      t.lastUpdate + t.minUpdateIntvlSecs < 9223372036854775808 →
      ((t.Execute w cur nowP now2 data).refreshed = true ↔
        cur - t.lastUpdate ≥ t.minUpdateIntvlSecs)) := by
  have h := execute_refreshed_iff t w cur nowP now2 data
  refine ⟨h, ?_, ?_⟩
  · intro hm
    cases hb : (t.Execute w cur nowP now2 data).refreshed with
    | false => rfl
    | true => exact absurd hm (h.mp hb).2.1
  · intro h1 hsome hlo hhi
    rw [h, wrap64_eq_of_range _ hlo hhi]
    constructor
    · rintro ⟨_, _, hle, _⟩
      omega
    · intro hge
      exact ⟨hsome, by omega, by omega, by omega⟩

/-- C5 witness: the amended characterization applied at a compiled
template with interval 1, ten seconds after its last refresh. -/
theorem c5_refresh_characterization_witness :
    (tmplGood.Execute cwOk 60 61 61 0).refreshed = true :=
  ((c5_refresh_characterization tmplGood cwOk 60 61 61 0).2.2
    (by decide) (by decide) (by decide) (by decide)).mpr (by decide)

theorem alookup_foldl_ainsert_not_mem {α : Type} (fm : GoMap α) (base : GoMap α) (n : String)
    (h : n ∉ akeys fm) :
    alookup (fm.foldl (fun m kv => ainsert m kv.1 kv.2) base) n = alookup base n := by
  induction fm generalizing base with
  | nil => rfl
  | cons kv rest ih =>
    obtain ⟨a, b⟩ := kv
    simp only [akeys, List.map_cons, List.mem_cons] at h
    push_neg at h
    simp only [List.foldl_cons]
    rw [ih _ (by simpa [akeys] using h.2)]
    exact alookup_ainsert_ne base a n b h.1

theorem alookup_foldl_ainsert_of_mem {α : Type} (fm : GoMap α) (base : GoMap α)
    (n : String) (v : α) :
    (akeys fm).Nodup → (n, v) ∈ fm →
    alookup (fm.foldl (fun m kv => ainsert m kv.1 kv.2) base) n = some v := by
  induction fm generalizing base with
  | nil =>
    intro _ hmem
    cases hmem
  | cons kv rest ih =>
    intro hnd hmem
    obtain ⟨a, b⟩ := kv
    simp only [List.foldl_cons]
    rcases List.mem_cons.mp hmem with he | hm
    · injection he with h1 h2
      subst h1
      subst h2
      have hna : n ∉ akeys rest := by
        simp only [akeys, List.map_cons, List.nodup_cons] at hnd
        exact hnd.1
      rw [alookup_foldl_ainsert_not_mem rest _ n hna]
      exact alookup_ainsert_self base n v
    · have hnd2 : (akeys rest).Nodup := by
        simp only [akeys, List.map_cons, List.nodup_cons] at hnd
        exact hnd.2
      exact ih _ hnd2 hm

/-- C6: a function added through the collection becomes visible to the
next compile of every currently-cached artifact.  The `FuncAdd` (and
`FuncsAdd`) broadcast marks every cached template's dirty flag and
inserts the function into that template's own map, and whenever the
dirty flag is set and the stat succeeds, `parseFile` recompiles,
handing the engine exactly the template's current function map as its
snapshot. -/
theorem c6_funcAdd_visibility (c : TmplColl) (name : String) (fn : FuncVal) (fm : FuncMap)
    (w : World) (now : Int) :
    (∀ kv ∈ (c.FuncAdd name fn).tmpls,
      kv.2.funcMapUpdated = true ∧ alookup kv.2.funcMap name = some fn) ∧
    ((akeys fm).Nodup → ∀ kv ∈ (c.FuncsAdd fm).tmpls, ∀ n v, (n, v) ∈ fm →
      kv.2.funcMapUpdated = true ∧ alookup kv.2.funcMap n = some v) ∧
    (∀ (t : Tmpl) (f : String) (m : Int), t.funcMapUpdated = true → w.statFile f = .ok m →
      (t.parseFile w now f).snapshot = some t.funcMap) := by
  refine ⟨?_, ?_, ?_⟩
  · intro kv hkv
    simp only [TmplColl.FuncAdd, List.mem_map] at hkv
    obtain ⟨kv0, _, hkv0⟩ := hkv
    subst hkv0
    exact ⟨rfl, alookup_ainsert_self kv0.2.funcMap name fn⟩
  · intro hnd kv hkv n v hmem
    simp only [TmplColl.FuncsAdd, List.mem_map] at hkv
    obtain ⟨kv0, _, hkv0⟩ := hkv
    subst hkv0
    exact ⟨rfl, alookup_foldl_ainsert_of_mem fm kv0.2.funcMap n v hnd hmem⟩
  · intro t f m hdirty hstat
    simp only [Tmpl.parseFile, hstat]
    rw [if_pos (Or.inr hdirty)]
    cases hc : w.compile f t.delims t.funcMap t.options with
    | error e => simp [hc]
    | ok tm => simp [hc]

/-- C6 witness: the broadcast and snapshot facts at a concrete
collection holding one compiled artifact. -/
theorem c6_funcAdd_visibility_witness :
    ((("/a/p.html", tmplGood.FuncAdd "g" 7) : String × Tmpl).2.funcMapUpdated = true ∧
      alookup (("/a/p.html", tmplGood.FuncAdd "g" 7) : String × Tmpl).2.funcMap "g" = some 7) ∧
    ((c2t.parseFile cwOk 0 "/a/p.html").snapshot = some c2t.funcMap) :=
  ⟨(c6_funcAdd_visibility cFixture "g" 7 [("h", 9)] cwOk 0).1
      ("/a/p.html", tmplGood.FuncAdd "g" 7) (by decide),
    (c6_funcAdd_visibility cFixture "g" 7 [("h", 9)] cwOk 0).2.2 c2t "/a/p.html" 10 rfl rfl⟩

theorem parseFiles_lookup_preserved (w : World) (now : Int) (lockMods : Bool) (p : String) :
    ∀ (fs : List String) (t : TmplColl),
    (∀ g ∈ fs, ∀ q, w.absResolve g = .ok q → q ≠ p) →
    alookup ((t.parseFiles w now lockMods fs).1).tmpls p = alookup t.tmpls p := by
  intro fs
  induction fs with
  | nil =>
    intro t _
    rfl
  | cons g rest ih =>
    intro t h
    cases hg : w.absResolve g with
    | error e => simp [TmplColl.parseFiles, hg]
    | ok q =>
      have hq : q ≠ p := h g (by simp) q hg
      simp only [TmplColl.parseFiles, hg]
      rw [ih _ (fun g2 hg2 => h g2 (by simp [hg2]))]
      exact alookup_ainsert_ne t.tmpls q p _ (fun he => hq he.symm)

/-- C4: for every batch whose earlier paths all resolve and in which
the given path resolves to `absPath` (later entries resolving
elsewhere), the batch parse stores the freshly constructed
defaults-configured artifact at `absPath` - whatever the stat and
compile outcomes, in particular when the backing file is missing or
the engine rejects it - overwriting any previously cached artifact at
that key. -/
theorem c4_parse_stores_fresh_artifact (w : World) (now : Int) (lockMods : Bool)
    (t : TmplColl) (fs1 fs2 : List String) (filename absPath : String)
    (h1 : ∀ g ∈ fs1, ∃ q, w.absResolve g = .ok q)
    (hp : w.absResolve filename = .ok absPath)
    (h2 : ∀ g ∈ fs2, ∀ q, w.absResolve g = .ok q → q ≠ absPath) :
    alookup ((t.parseFiles w now lockMods (fs1 ++ filename :: fs2)).1).tmpls absPath
      = some ((newCollTmpl t).ParseFile w now absPath).t := by
  revert h1
  induction fs1 generalizing t with
  | nil =>
    intro _
    simp only [List.nil_append, TmplColl.parseFiles, hp]
    rw [parseFiles_lookup_preserved w now lockMods absPath fs2 _ h2]
    exact alookup_ainsert_self t.tmpls absPath _
  | cons g rest ih =>
    intro h1
    obtain ⟨q, hq⟩ := h1 g (by simp)
    simp only [List.cons_append, TmplColl.parseFiles, hq]
    exact ih _ (fun g2 h3 => h1 g2 (by simp [h3]))

/-- C4 witness: a collection already holding a successfully compiled
artifact for `/a/missing.html`; under `cwMissing` the file is absent,
yet the single-path batch overwrites the cached entry with the fresh
never-compiled artifact and the stat failure is not returned. -/
theorem c4_parse_stores_fresh_artifact_witness :
    alookup ((cStale.parseFiles cwMissing 50 true ["/a/missing.html"]).1).tmpls "/a/missing.html"
      = some ((newCollTmpl cStale).ParseFile cwMissing 50 "/a/missing.html").t :=
  c4_parse_stores_fresh_artifact cwMissing 50 true cStale [] [] "/a/missing.html"
    "/a/missing.html" (by simp) rfl (by simp)

theorem foldl_removeStale_preserve_none (w : World) (p : String) :
    ∀ (ps : List String) (t : TmplColl), alookup t.tmpls p = none →
    alookup ((ps.foldl (removeStaleStep w) t)).tmpls p = none := by
  intro ps
  induction ps with
  | nil =>
    intro t h
    exact h
  | cons q rest ih =>
    intro t h
    simp only [List.foldl_cons]
    apply ih
    cases hq : isNotExist (w.statFile q) with
    | false => simpa [removeStaleStep, hq] using h
    | true =>
      by_cases hpq : p = q
      · subst hpq
        simp [removeStaleStep, hq, alookup_aerase_self]
      · simpa [removeStaleStep, hq, alookup_aerase_ne t.tmpls q p hpq] using h

theorem foldl_removeStale_evict (w : World) (p : String)
    (hstat : w.statFile p = .error .notExist) :
    ∀ (ps : List String) (t : TmplColl), p ∈ ps →
    alookup ((ps.foldl (removeStaleStep w) t)).tmpls p = none := by
  intro ps
  induction ps with
  | nil =>
    intro t h
    cases h
  | cons q rest ih =>
    intro t h
    simp only [List.foldl_cons]
    rcases List.mem_cons.mp h with rfl | hm
    · apply foldl_removeStale_preserve_none w p rest
      have hne : isNotExist (w.statFile p) = true := by rw [hstat]; rfl
      simp [removeStaleStep, hne, alookup_aerase_self]
    · exact ih _ hm

theorem removeStale_lookup_none (w : World) (t : TmplColl) (p : String)
    (hstat : w.statFile p = .error .notExist) :
    alookup ((t.RemoveStaleFiles w).tmpls) p = none := by
  unfold TmplColl.RemoveStaleFiles
  by_cases hmem : p ∈ akeys t.tmpls
  · exact foldl_removeStale_evict w p hstat _ t hmem
  · exact foldl_removeStale_preserve_none w p _ t (alookup_eq_none_of_not_mem t.tmpls p hmem)

/-- C9: when a cached path's backing file is absent at stat time, the
stale-removal operation - run directly, or as the second half of the
background tick after directory indexing - evicts that path, and a
subsequent `ExecuteTemplate` on the swept collection for any name
resolving to that path returns `os.ErrNotExist`, writing nothing and
changing nothing. -/
theorem c9_stale_eviction (w : World) (t : TmplColl) (now : Int) (p f : String) (data : Nat)
    (cur nowP now2 : Int)
    (hstat : w.statFile p = .error .notExist)
    (habs : w.absResolve f = .ok p) :
    alookup ((t.RemoveStaleFiles w).tmpls) p = none ∧
    alookup ((t.sweepTick w now).tmpls) p = none ∧
    (t.RemoveStaleFiles w).ExecuteTemplate w cur nowP now2 f data
      = (t.RemoveStaleFiles w, [], some GoError.notExist) := by
  have h1 := removeStale_lookup_none w t p hstat
  have h2 := removeStale_lookup_none w (t.IndexDirs w now) p hstat
  refine ⟨h1, by simpa [TmplColl.sweepTick] using h2, ?_⟩
  simp [TmplColl.ExecuteTemplate, habs, h1]

/-- C9 witness: the eviction and subsequent not-found execution at a
concrete collection caching an absent file. -/
theorem c9_stale_eviction_witness :
    alookup ((cStale.RemoveStaleFiles cwMissing).tmpls) "/a/missing.html" = none ∧
    alookup ((cStale.sweepTick cwMissing 0).tmpls) "/a/missing.html" = none ∧
    (cStale.RemoveStaleFiles cwMissing).ExecuteTemplate cwMissing 1 2 3 "/a/missing.html" 0
      = (cStale.RemoveStaleFiles cwMissing, [], some GoError.notExist) :=
  c9_stale_eviction cwMissing cStale 0 "/a/missing.html" "/a/missing.html" 0 1 2 3
    (by rfl) rfl

theorem keysAbs_tmpls_ainsert (t : TmplColl) (p : String) (v : Tmpl)
    (ht : keysAbs t) (hp : isAbsPath p = true) :
    keysAbs { t with tmpls := ainsert t.tmpls p v } := by
  refine ⟨?_, ht.2⟩
  intro q hq
  rcases mem_akeys_ainsert _ _ _ _ hq with rfl | hq2
  · exact hp
  · exact ht.1 q hq2

theorem keysAbs_tmpls_aerase (t : TmplColl) (p : String) (ht : keysAbs t) :
    keysAbs { t with tmpls := aerase t.tmpls p } :=
  ⟨fun q hq => ht.1 q (mem_akeys_aerase _ _ _ hq), ht.2⟩

theorem keysAbs_dirs_ainsert (t : TmplColl) (p : String) (v : Option DirFilter)
    (ht : keysAbs t) (hp : isAbsPath p = true) :
    keysAbs { t with dirs := ainsert t.dirs p v } := by
  refine ⟨ht.1, ?_⟩
  intro q hq
  rcases mem_akeys_ainsert _ _ _ _ hq with rfl | hq2
  · exact hp
  · exact ht.2 q hq2

theorem keysAbs_dirs_aerase (t : TmplColl) (p : String) (ht : keysAbs t) :
    keysAbs { t with dirs := aerase t.dirs p } :=
  ⟨ht.1, fun q hq => ht.2 q (mem_akeys_aerase _ _ _ hq)⟩

theorem keysAbs_tmpls_map (t : TmplColl) (g : String → Tmpl → Tmpl) (ht : keysAbs t) :
    keysAbs { t with tmpls := t.tmpls.map (fun kv => (kv.1, g kv.1 kv.2)) } := by
  refine ⟨?_, ht.2⟩
  intro q hq
  rw [akeys_map_snd] at hq
  exact ht.1 q hq

theorem foldl_keysAbs {β : Type} (step : TmplColl → β → TmplColl)
    (hstep : ∀ c b, keysAbs c → keysAbs (step c b)) :
    ∀ (l : List β) (c : TmplColl), keysAbs c → keysAbs (l.foldl step c) := by
  intro l
  induction l with
  | nil =>
    intro c hc
    exact hc
  | cons b rest ih =>
    intro c hc
    exact ih _ (hstep c b hc)

theorem parseFiles_keysAbs (w : World) (hw : w.absOK) (now : Int) (lockMods : Bool) :
    ∀ (fs : List String) (t : TmplColl), keysAbs t → keysAbs (t.parseFiles w now lockMods fs).1 := by
  intro fs
  induction fs with
  | nil =>
    intro t ht
    exact ht
  | cons g rest ih =>
    intro t ht
    cases hg : w.absResolve g with
    | error e => simpa [TmplColl.parseFiles, hg] using ht
    | ok q =>
      simp only [TmplColl.parseFiles, hg]
      exact ih _ (keysAbs_tmpls_ainsert t q _ ht (hw g q hg))

theorem removeFiles_keysAbs (w : World) (lockMods : Bool) :
    ∀ (fs : List String) (t : TmplColl), keysAbs t → keysAbs (t.removeFiles w lockMods fs) := by
  intro fs
  induction fs with
  | nil =>
    intro t ht
    exact ht
  | cons g rest ih =>
    intro t ht
    cases hg : w.absResolve g with
    | error e => simpa [TmplColl.removeFiles, hg] using ih t ht
    | ok q =>
      simp only [TmplColl.removeFiles, hg]
      exact ih _ (keysAbs_tmpls_aerase t q ht)

theorem reloadFiles_keysAbs (w : World) (hw : w.absOK) (now : Int) :
    ∀ (fs : List String) (t : TmplColl), keysAbs t → keysAbs (t.ReloadFiles w now fs) := by
  intro fs
  induction fs with
  | nil =>
    intro t ht
    exact ht
  | cons g rest ih =>
    intro t ht
    cases hg : w.absResolve g with
    | error e => simpa [TmplColl.ReloadFiles, hg] using ih t ht
    | ok q =>
      cases hl : alookup t.tmpls q with
      | none => simpa [TmplColl.ReloadFiles, hg, hl] using ih t ht
      | some tm =>
        simp only [TmplColl.ReloadFiles, hg, hl]
        exact ih _ (keysAbs_tmpls_ainsert t q _ ht (hw g q hg))

theorem removeStaleStep_keysAbs (w : World) (t : TmplColl) (p : String) (ht : keysAbs t) :
    keysAbs (removeStaleStep w t p) := by
  unfold removeStaleStep
  cases h : isNotExist (w.statFile p) with
  | false => simpa [h] using ht
  | true => simpa [h] using keysAbs_tmpls_aerase t p ht

theorem removeStaleFiles_keysAbs (w : World) (t : TmplColl) (ht : keysAbs t) :
    keysAbs (t.RemoveStaleFiles w) :=
  foldl_keysAbs (removeStaleStep w) (fun c b hc => removeStaleStep_keysAbs w c b hc)
    (akeys t.tmpls) t ht

theorem indexDirs_keysAbs (w : World) (hw : w.absOK) (now : Int) (t : TmplColl)
    (ht : keysAbs t) : keysAbs (t.IndexDirs w now) := by
  unfold TmplColl.IndexDirs
  apply foldl_keysAbs
  · intro c kv hc
    apply foldl_keysAbs
    · intro c2 e hc2
      by_cases he : (kv.2.getD DirFilterHTML) kv.1 e.1 = true
      · simpa [he] using parseFiles_keysAbs w hw now false [e.1] c2 hc2
      · simpa [he] using hc2
    · exact hc
  · exact ht

/-- C10: assuming the external resolver only returns absolute paths,
the invariant "every key of the path-to-template map (and of the
watched-directory map) is an absolute path" is preserved by every
operation of the collection, because each operation canonicalizes its
path arguments with `filepath.Abs` before reading or writing the maps;
consequently any two names with the same resolution address the same
single entry (stated for `Lookup`). -/
theorem c10_abs_keys (w : World) (t : TmplColl) (hw : w.absOK) (ht : keysAbs t) :
    (∀ now lockMods fs, keysAbs (t.parseFiles w now lockMods fs).1) ∧
    (∀ now fs, keysAbs (t.ParseFiles w now fs).1) ∧
    (∀ now pattern, keysAbs (t.ParseGlob w now pattern).1) ∧
    (∀ now fs, keysAbs (t.ReloadFiles w now fs)) ∧
    (∀ lockMods fs, keysAbs (t.removeFiles w lockMods fs)) ∧
    (∀ fs, keysAbs (t.RemoveFiles w fs)) ∧
    keysAbs (t.RemoveStaleFiles w) ∧
    (∀ now, keysAbs (t.IndexDirs w now)) ∧
    (∀ now, keysAbs (t.sweepTick w now)) ∧
    (∀ cur nowP now2 f data, keysAbs (t.ExecuteTemplate w cur nowP now2 f data).1) ∧
    (∀ dir dirFilter, keysAbs (t.WatchDir w dir dirFilter).1) ∧
    (∀ dir, keysAbs (t.UnwatchDir w dir).1) ∧
    (∀ name fn, keysAbs (t.FuncAdd name fn)) ∧
    (∀ fm, keysAbs (t.FuncsAdd fm)) ∧
    (∀ names, keysAbs (t.FuncsRemove names)) ∧
    (∀ l r, keysAbs (t.Delims l r)) ∧
    (∀ opt, keysAbs (t.optionSet opt)) ∧
    (∀ f1 f2, w.absResolve f1 = w.absResolve f2 → t.Lookup w f1 = t.Lookup w f2) := by
  refine ⟨fun now lockMods fs => parseFiles_keysAbs w hw now lockMods fs t ht,
    fun now fs => parseFiles_keysAbs w hw now true fs t ht,
    ?_, fun now fs => reloadFiles_keysAbs w hw now fs t ht,
    fun lockMods fs => removeFiles_keysAbs w lockMods fs t ht,
    fun fs => removeFiles_keysAbs w true fs t ht,
    removeStaleFiles_keysAbs w t ht,
    fun now => indexDirs_keysAbs w hw now t ht,
    fun now => removeStaleFiles_keysAbs w _ (indexDirs_keysAbs w hw now t ht),
    ?_, ?_, ?_,
    fun name fn => keysAbs_tmpls_map t (fun _ tm => tm.FuncAdd name fn) ht,
    fun fm => keysAbs_tmpls_map t (fun _ tm => tm.FuncsAdd fm) ht,
    fun names => keysAbs_tmpls_map t (fun _ tm => tm.FuncsRemove names) ht,
    fun l r => ht, ?_, ?_⟩
  · intro now pattern
    cases hg : w.glob pattern with
    | error e => simpa [TmplColl.ParseGlob, hg] using ht
    | ok fs =>
      simpa [TmplColl.ParseGlob, hg] using parseFiles_keysAbs w hw now false fs t ht
  · intro cur nowP now2 f data
    cases hf : w.absResolve f with
    | error e => simpa [TmplColl.ExecuteTemplate, hf] using ht
    | ok q =>
      cases hl : alookup t.tmpls q with
      | none => simpa [TmplColl.ExecuteTemplate, hf, hl] using ht
      | some tm =>
        simp only [TmplColl.ExecuteTemplate, hf, hl]
        exact keysAbs_tmpls_ainsert t q _ ht (hw f q hf)
  · intro dir dirFilter
    cases hd : w.absResolve dir with
    | error e => simpa [TmplColl.WatchDir, hd] using ht
    | ok q =>
      simp only [TmplColl.WatchDir, hd]
      exact keysAbs_dirs_ainsert t q dirFilter ht (hw dir q hd)
  · intro dir
    cases hd : w.absResolve dir with
    | error e => simpa [TmplColl.UnwatchDir, hd] using ht
    | ok q =>
      simp only [TmplColl.UnwatchDir, hd]
      exact removeFiles_keysAbs w false _ _ (keysAbs_dirs_aerase t q ht)
  · intro opt
    refine ⟨?_, ?_⟩
    · rw [(collOptionSet_fields opt t).1]
      exact ht.1
    · rw [(collOptionSet_fields opt t).2.2.1]
      exact ht.2
  · intro f1 f2 h
    unfold TmplColl.Lookup
    rw [h]

/-- C10 witness: the invariant applied to a fresh collection and a
slash-prefixing resolver, through a parse of a relative name. -/
theorem c10_abs_keys_witness :
    keysAbs (((TmplColl.New 60).parseFiles cwAbsify 0 true ["x.html"]).1) :=
  (c10_abs_keys cwAbsify (TmplColl.New 60)
    (by
      intro f p h
      injection h with h2
      subst h2
      rfl)
    (by
      refine ⟨?_, ?_⟩ <;> intro p hp <;> simp [TmplColl.New, akeys] at hp)).1 0 true ["x.html"]
